import Mathlib

/-!
Shallow embedding of `dotfiles_manager.py` (BlackRoad Dotfiles Manager).

The program is a CLI tool managing dotfile entries in a SQLite store and
performing symlink / backup / diff / restore operations on the filesystem.
We embed:
  * the filesystem as an association list from paths (component lists) to
    nodes (regular file with byte content, symlink with a target path, or
    directory), with `os`/`pathlib` operations modelled explicitly
    (symlink-following with fuel, lstat-style lookup, rename, copy, mkdir);
  * the SQLite store as lists of typed rows with autoincrement counters,
    `UNIQUE(name)` enforced on insert of a dotfile row;
  * Python's `base64.b64encode`/`b64decode` as executable functions on byte
    lists / character lists over the standard alphabet;
  * `hashlib.sha256(...).hexdigest()` as an executable SHA-256 over byte
    lists rendered to a 64-character lowercase hex string;
  * each `cmd_*` function as a state transformer returning the new state,
    the list of emitted messages, and a flag recording whether the Python
    code would have terminated with an uncaught exception.

Directory-existence preconditions of plain file writes are not modelled
(a write simply places a file node at the resolved path); the commands
that create directories (`mkdir(parents=True, exist_ok=True)`) are
modelled faithfully, including failure when a path component exists as a
non-directory.
-/

namespace Dotfiles

/-! ### Paths and filesystem -/

/-- A filesystem path, as its list of components from the root. -/
abbrev Path := List String

/-- A filesystem node: regular file (byte content), symbolic link, or
directory. -/
inductive Node where
  | file (content : List Nat)
  | symlink (target : Path)
  | dir
deriving DecidableEq, Repr

/-- The filesystem: a finite map from paths to nodes, as an association
list. Earlier bindings shadow later ones. -/
abbrev FS := List (Path × Node)

/-- `lstat`-style lookup: does not follow symlinks. -/
def fsLookup (fs : FS) (p : Path) : Option Node :=
  match fs with
  | [] => none
  | (q, n) :: rest => if q = p then some n else fsLookup rest p

/-- Remove any binding for `p`. -/
def fsErase (fs : FS) (p : Path) : FS :=
  fs.filter (fun e => decide (e.1 ≠ p))

/-- Bind `p` to node `n`, replacing any previous binding. -/
def fsSet (fs : FS) (p : Path) (n : Node) : FS :=
  (p, n) :: fsErase fs p

/-- Follow symlinks starting at `p`, with fuel bounding chain length
(mirrors the kernel's symlink-loop limit); returns the final non-symlink
node if any. -/
def resolveNode (fs : FS) : Nat → Path → Option Node
  | 0, _ => none
  | fuel + 1, p =>
    match fsLookup fs p with
    | some (.symlink t) => resolveNode fs fuel t
    | other => other

/-- `Path.exists()`: follows symlinks; `False` on a broken or cyclic
symlink chain. -/
def fsExists (fs : FS) (p : Path) : Bool :=
  (resolveNode fs 40 p).isSome

/-- `Path.is_symlink()`: lstat-based. -/
def fsIsSymlink (fs : FS) (p : Path) : Bool :=
  match fsLookup fs p with
  | some (.symlink _) => true
  | _ => false

/-- `os.readlink`: the stored target of a symlink node. -/
def fsReadlink (fs : FS) (p : Path) : Option Path :=
  match fsLookup fs p with
  | some (.symlink t) => some t
  | _ => none

/-- `Path.read_bytes()`: follows symlinks, succeeds only on a regular
file. -/
def readBytes (fs : FS) (p : Path) : Option (List Nat) :=
  match resolveNode fs 40 p with
  | some (.file c) => some c
  | _ => none

/-- Follow symlinks to the path a write through `p` would land on. -/
def resolvePath (fs : FS) : Nat → Path → Option Path
  | 0, _ => none
  | fuel + 1, p =>
    match fsLookup fs p with
    | some (.symlink t) => resolvePath fs fuel t
    | _ => some p

/-- `Path.write_bytes()`: follows symlinks, fails on a directory or a
cyclic chain. -/
def writeBytes (fs : FS) (p : Path) (c : List Nat) : Option FS :=
  match resolvePath fs 40 p with
  | none => none
  | some q =>
    match fsLookup fs q with
    | some .dir => none
    | _ => some (fsSet fs q (.file c))

/-- `os.path.isdir`: follows symlinks. -/
def fsIsDir (fs : FS) (p : Path) : Bool :=
  match resolveNode fs 40 p with
  | some .dir => true
  | _ => false

/-- `shutil.move` on the same filesystem. A directory destination (after
following symlinks, `os.path.isdir`) diverts the move *into* that
directory under the source's basename, raising `shutil.Error` when that
inner path already exists. Otherwise `os.rename` moves the node itself
(a symlink is moved, not followed) and overwrites a non-directory
destination — except that renaming a directory over an existing
non-directory raises, and the `copytree` fallback then dies on the
already-existing destination. `none` is an uncaught exception. -/
def fsMove (fs : FS) (src dst : Path) : Option FS :=
  match fsLookup fs src with
  | none => none
  | some n =>
    if fsIsDir fs dst then
      let realDst := dst ++ [src.getLastD default]
      if fsExists fs realDst then none
      else some (fsSet (fsErase fs src) realDst n)
    else
      match n, fsLookup fs dst with
      | .dir, some _ => none
      | _, _ => some (fsSet (fsErase fs src) dst n)

/-- `os.symlink(source, target)`: creates a symlink node holding the
given target string; fails (FileExistsError) if anything occupies the
destination path. -/
def fsSymlink (fs : FS) (linkTarget dst : Path) : Option FS :=
  match fsLookup fs dst with
  | some _ => none
  | none => some (fsSet fs dst (.symlink linkTarget))

/-- `shutil.copy2`: reads the (symlink-resolved) source content and
writes it at the destination. -/
def fsCopy (fs : FS) (src dst : Path) : Option FS :=
  match readBytes fs src with
  | none => none
  | some c => writeBytes fs dst c

/-- Create one directory, `exist_ok=True`: a no-op if a directory is
already there, an error if a non-directory occupies the path. -/
def mkdirOne (fs : FS) (q : Path) : Option FS :=
  match fsLookup fs q with
  | none => some (fsSet fs q .dir)
  | some .dir => some fs
  | some _ => none

/-- Create each directory of a chain in order. -/
def mkdirChain (fs : FS) : List Path → Option FS
  | [] => some fs
  | q :: rest =>
    match mkdirOne fs q with
    | none => none
    | some fs1 => mkdirChain fs1 rest

/-- The chain of ancestors of `p`'s parent (shortest first): all
non-empty proper prefixes of `p.dropLast`, then `p.dropLast` itself. -/
def parentChain (p : Path) : List Path :=
  (List.range (p.length - 1)).map (fun i => p.take (i + 1))

/-- `target.parent.mkdir(parents=True, exist_ok=True)`. -/
def mkdirParents (fs : FS) (p : Path) : Option FS :=
  mkdirChain fs (parentChain p)

/-- `str(path) + suffix`: append a suffix to the last path component. -/
def withSuffix (p : Path) (suf : String) : Path :=
  p.dropLast ++ [p.getLastD default ++ suf]

def bakSuffix : String := ".bak"
def preRestoreSuffix : String := ".pre-restore"

/-- The `<target>.bak` path used by `link`. -/
def bakPath (p : Path) : Path := withSuffix p bakSuffix

/-- The `<source>.pre-restore` path used by `restore`. -/
def preRestorePath (p : Path) : Path := withSuffix p preRestoreSuffix

/-! ### Base64 (Python `base64.b64encode` / `b64decode`) -/

def b64AlphabetStr : String :=
  "ABCDEFGHIJKLMNOPQRSTUVWXYZabcdefghijklmnopqrstuvwxyz0123456789+/"

def b64Alphabet : List Char := b64AlphabetStr.toList

/-- The character encoding a 6-bit group. -/
def sextetChar (n : Nat) : Char := b64Alphabet.getD n '?'

/-- The 6-bit group a character decodes to (its alphabet index). -/
def charSextet (c : Char) : Nat := b64Alphabet.indexOf c

/-- `base64.b64encode` on a byte list, producing the character list of
the encoded string (with `=` padding). -/
def b64encode : List Nat → List Char
  | [] => []
  | [b0] =>
    [sextetChar (b0 / 4), sextetChar (b0 % 4 * 16), '=', '=']
  | [b0, b1] =>
    [sextetChar (b0 / 4), sextetChar (b0 % 4 * 16 + b1 / 16),
     sextetChar (b1 % 16 * 4), '=']
  | b0 :: b1 :: b2 :: rest =>
    sextetChar (b0 / 4) :: sextetChar (b0 % 4 * 16 + b1 / 16) ::
    sextetChar (b1 % 16 * 4 + b2 / 64) :: sextetChar (b2 % 64) ::
    b64encode rest

/-- `base64.b64decode` on the character list of an encoded string. -/
def b64decode : List Char → List Nat
  | c0 :: c1 :: c2 :: c3 :: rest =>
    let s0 := charSextet c0
    let s1 := charSextet c1
    if c2 = '=' then
      [s0 * 4 + s1 / 16]
    else
      let s2 := charSextet c2
      if c3 = '=' then
        [s0 * 4 + s1 / 16, s1 % 16 * 16 + s2 / 4]
      else
        (s0 * 4 + s1 / 16) :: (s1 % 16 * 16 + s2 / 4) ::
        (s2 % 4 * 64 + charSextet c3) :: b64decode rest
  | _ => []

/-- Encoding to a `String` (the TEXT value stored in the `content_b64`
column). -/
def b64encodeStr (c : List Nat) : String := String.mk (b64encode c)

/-- Decoding from the stored `String`. -/
def b64decodeStr (s : String) : List Nat := b64decode s.toList

/-! ### SHA-256 (`hashlib.sha256(content).hexdigest()`)

A direct executable rendering of FIPS 180-4 over byte lists, with 32-bit
words as naturals reduced modulo `2 ^ 32`. -/

/-- Reduce to a 32-bit word. -/
def w32 (n : Nat) : Nat := n % 4294967296

/-- Rotate a 32-bit word right by `k`. -/
def rotr (k n : Nat) : Nat := w32 (n / 2 ^ k + n % 2 ^ k * 2 ^ (32 - k))

/-- Logical shift right. -/
def shr (k n : Nat) : Nat := n / 2 ^ k

/-- Bitwise complement on 32 bits (valid for `n < 2 ^ 32`). -/
def wnot (n : Nat) : Nat := 4294967295 - n

def upperSig0 (x : Nat) : Nat := rotr 2 x ^^^ rotr 13 x ^^^ rotr 22 x
def upperSig1 (x : Nat) : Nat := rotr 6 x ^^^ rotr 11 x ^^^ rotr 25 x
def lowerSig0 (x : Nat) : Nat := rotr 7 x ^^^ rotr 18 x ^^^ shr 3 x
def lowerSig1 (x : Nat) : Nat := rotr 17 x ^^^ rotr 19 x ^^^ shr 10 x
def chFn (e f g : Nat) : Nat := (e &&& f) ^^^ (wnot e &&& g)
def majFn (a b c : Nat) : Nat := (a &&& b) ^^^ (a &&& c) ^^^ (b &&& c)

/-- The 64 round constants. -/
def sha256K : List Nat :=
  [1116352408, 1899447441, 3049323471, 3921009573, 961987163,
   1508970993, 2453635748, 2870763221, 3624381080, 310598401,
   607225278, 1426881987, 1925078388, 2162078206, 2614888103,
   3248222580, 3835390401, 4022224774, 264347078, 604807628,
   770255983, 1249150122, 1555081692, 1996064986, 2554220882,
   2821834349, 2952996808, 3210313671, 3336571891, 3584528711,
   113926993, 338241895, 666307205, 773529912, 1294757372,
   1396182291, 1695183700, 1986661051, 2177026350, 2456956037,
   2730485921, 2820302411, 3259730800, 3345764771, 3516065817,
   3600352804, 4094571909, 275423344, 430227734, 506948616,
   659060556, 883997877, 958139571, 1322822218, 1537002063,
   1747873779, 1955562222, 2024104815, 2227730452, 2361852424,
   2428436474, 2756734187, 3204031479, 3329325298]

/-- The eight working variables / intermediate hash value. -/
structure H8 where
  a : Nat
  b : Nat
  c : Nat
  d : Nat
  e : Nat
  f : Nat
  g : Nat
  h : Nat
deriving DecidableEq, Repr

/-- The initial hash value. -/
def sha256H0 : H8 :=
  ⟨1779033703, 3144134277, 1013904242, 2773480762,
   1359893119, 2600822924, 528734635, 1541459225⟩

/-- Append padding: a `0x80` byte, zero bytes to 56 mod 64, and the
64-bit big-endian bit length. -/
def padMessage (msg : List Nat) : List Nat :=
  let len := msg.length
  let zeros := (119 - len % 64) % 64
  let bitLen := len * 8
  msg ++ [128] ++ List.replicate zeros 0 ++
    [bitLen / 2 ^ 56 % 256, bitLen / 2 ^ 48 % 256, bitLen / 2 ^ 40 % 256,
     bitLen / 2 ^ 32 % 256, bitLen / 2 ^ 24 % 256, bitLen / 2 ^ 16 % 256,
     bitLen / 2 ^ 8 % 256, bitLen % 256]

/-- Split into 64-byte blocks (the fuel, at least the list length, makes
the recursion structural). -/
def chunksGo : Nat → List Nat → List (List Nat)
  | _, [] => []
  | 0, _ :: _ => []
  | fuel + 1, b :: rest =>
    (b :: rest).take 64 :: chunksGo fuel ((b :: rest).drop 64)

/-- Split into 64-byte blocks. -/
def chunks64 (l : List Nat) : List (List Nat) := chunksGo l.length l

/-- The sixteen 32-bit big-endian words of one 64-byte block. -/
def blockWords (block : List Nat) : List Nat :=
  (List.range 16).map (fun i =>
    block.getD (4 * i) 0 * 2 ^ 24 + block.getD (4 * i + 1) 0 * 2 ^ 16 +
    block.getD (4 * i + 2) 0 * 2 ^ 8 + block.getD (4 * i + 3) 0)

/-- Extend the 16 words to the 64-entry message schedule. -/
def schedule (w16 : List Nat) : List Nat :=
  (List.range 48).foldl
    (fun w _ =>
      let t := w.length
      w ++ [w32 (lowerSig1 (w.getD (t - 2) 0) + w.getD (t - 7) 0 +
                 lowerSig0 (w.getD (t - 15) 0) + w.getD (t - 16) 0)])
    w16

/-- One compression round. -/
def compressStep (s : H8) (kw : Nat × Nat) : H8 :=
  let t1 := w32 (s.h + upperSig1 s.e + chFn s.e s.f s.g + kw.1 + kw.2)
  let t2 := w32 (upperSig0 s.a + majFn s.a s.b s.c)
  ⟨w32 (t1 + t2), s.a, s.b, s.c, w32 (s.d + t1), s.e, s.f, s.g⟩

/-- Process one 64-byte block. -/
def compressBlock (hv : H8) (block : List Nat) : H8 :=
  let ws := schedule (blockWords block)
  let s := (sha256K.zip ws).foldl compressStep hv
  ⟨w32 (hv.a + s.a), w32 (hv.b + s.b), w32 (hv.c + s.c), w32 (hv.d + s.d),
   w32 (hv.e + s.e), w32 (hv.f + s.f), w32 (hv.g + s.g), w32 (hv.h + s.h)⟩

/-- The SHA-256 state after hashing a whole message. -/
def sha256 (msg : List Nat) : H8 :=
  (chunks64 (padMessage msg)).foldl compressBlock sha256H0

/-- A lowercase hex digit. -/
def hexChar (n : Nat) : Char :=
  Char.ofNat (if n < 10 then 48 + n else 87 + n)

/-- A 32-bit word as 8 hex characters. -/
def wordHex (n : Nat) : String :=
  String.mk
    [hexChar (n / 2 ^ 28 % 16), hexChar (n / 2 ^ 24 % 16),
     hexChar (n / 2 ^ 20 % 16), hexChar (n / 2 ^ 16 % 16),
     hexChar (n / 2 ^ 12 % 16), hexChar (n / 2 ^ 8 % 16),
     hexChar (n / 2 ^ 4 % 16), hexChar (n % 16)]

/-- `hashlib.sha256(msg).hexdigest()`. -/
def sha256hex (msg : List Nat) : String :=
  let hv := sha256 msg
  wordHex hv.a ++ wordHex hv.b ++ wordHex hv.c ++ wordHex hv.d ++
  wordHex hv.e ++ wordHex hv.f ++ wordHex hv.g ++ wordHex hv.h

/-! ### The store (`get_db` schema) and program state -/

/-- A row of the `dotfiles` table (`row_to_entry`): `auto_update` is kept
as the stored integer, coerced to bool only for display. -/
structure DotfileEntry where
  id : Nat
  name : String
  source_path : Path
  target_path : Path
  category : String
  description : String
  auto_update : Nat
deriving DecidableEq, Repr

/-- A row of the `snapshots` table (with the `content_b64` column that
`row_to_snapshot` drops but `cmd_diff`/`cmd_restore` read). -/
structure Snapshot where
  id : Nat
  entry_id : Nat
  content_hash : String
  content_b64 : String
  saved_at : String
  notes : String
deriving DecidableEq, Repr

/-- The SQLite database: both tables in rowid (insertion) order, plus
the AUTOINCREMENT counters. -/
structure DB where
  dotfiles : List DotfileEntry
  snapshots : List Snapshot
  nextDotfileId : Nat
  nextSnapshotId : Nat
deriving DecidableEq, Repr

/-- Program state: the store and the filesystem. -/
structure State where
  db : DB
  fs : FS
deriving DecidableEq, Repr

/-- `SELECT * FROM dotfiles WHERE id=?` (ids are unique, first match). -/
def findEntry (db : DB) (eid : Nat) : Option DotfileEntry :=
  db.dotfiles.find? (fun e => e.id == eid)

/-- `SELECT * FROM snapshots WHERE id=?` — by global snapshot id only,
with no condition on `entry_id`. -/
def findSnapshot (db : DB) (sid : Nat) : Option Snapshot :=
  db.snapshots.find? (fun s => s.id == sid)

/-- `INSERT INTO dotfiles(...)`: fails (IntegrityError) iff the UNIQUE
constraint on `name` is violated. -/
def dbInsertDotfile (db : DB) (name : String) (src tgt : Path)
    (cat desc : String) (auto : Nat) : Option DB :=
  if db.dotfiles.any (fun e => e.name == name) then none
  else
    some { db with
      dotfiles := db.dotfiles ++
        [⟨db.nextDotfileId, name, src, tgt, cat, desc, auto⟩],
      nextDotfileId := db.nextDotfileId + 1 }

/-- `INSERT INTO snapshots(...)` (SQLite does not enforce the foreign
key by default, and the callers check entry existence themselves). -/
def dbInsertSnapshot (db : DB) (eid : Nat) (hash b64 savedAt notes : String) :
    DB :=
  { db with
    snapshots := db.snapshots ++
      [⟨db.nextSnapshotId, eid, hash, b64, savedAt, notes⟩],
    nextSnapshotId := db.nextSnapshotId + 1 }

/-! SQLite compares TEXT columns with the BINARY collation (bytewise),
which on these ASCII timestamps is the code-point lexicographic order.
`strLtb` is a structurally recursive rendering of that comparison
(agreeing with Lean's `String` linear order, proved below). -/

def strLtb : List Char → List Char → Bool
  | [], [] => false
  | [], _ :: _ => true
  | _ :: _, [] => false
  | a :: as, b :: bs => if a < b then true else if a = b then strLtb as bs else false

def strLt (s t : String) : Bool := strLtb s.toList t.toList

/-- `SELECT * FROM snapshots WHERE entry_id=? ORDER BY saved_at DESC
LIMIT 1`: among the entry's snapshots, the first in rowid order among
those of maximal `saved_at` (SQLite's sort keeps the scan order of
equal keys, observed behavior of the bundled engine). -/
def latestSnapshot (db : DB) (eid : Nat) : Option Snapshot :=
  match db.snapshots.filter (fun s => s.entry_id == eid) with
  | [] => none
  | s :: rest =>
    some (rest.foldl (fun best x => if strLt best.saved_at x.saved_at then x else best) s)

/-- `file_hash`: SHA-256 hexdigest of the whole content, or the empty
string when the read raises. -/
def file_hash (fs : FS) (p : Path) : String :=
  match readBytes fs p with
  | some c => sha256hex c
  | none => ""

/-- The fixed category set. -/
def CATEGORIES : List String := ["shell", "editor", "git", "tmux", "tool"]

/-! ### Emitted messages

Each `ok`/`err`/`info`/`warn`/`print` call of the source is recorded as
one structured message carrying the data interpolated into the text. -/

inductive Msg where
  /-- `err(f"Category must be one of: ...")` (followed by `sys.exit(1)`). -/
  | errBadCategory (cat : String)
  /-- `ok(f"Registered: ...")`. -/
  | okRegistered (name : String)
  /-- `err(f"A dotfile named '...' is already registered")`. -/
  | errDuplicate (name : String)
  /-- `err(f"Entry #... not found")`. -/
  | errEntryNotFound (eid : Nat)
  /-- `err(f"Source does not exist: ...")` / `err(f"Source file not found: ...")`. -/
  | errSourceMissing (p : Path)
  /-- `ok(f"Already linked: ...")`. -/
  | okAlreadyLinked (target : Path)
  /-- `warn(f"Existing file backed up to ...")`. -/
  | warnBackedUp (backup : Path)
  /-- `ok(f"Linked: ... → ...")`. -/
  | okLinked (target source : Path)
  /-- `ok(f"Snapshot saved for ... hash=...")`. -/
  | okSnapshotSaved (name hash : String)
  /-- `warn(f"No snapshots for .... Run `backup` first.")`. -/
  | warnNoSnapshots (name : String)
  /-- `ok(f"...: no changes since last snapshot")`. -/
  | okNoChanges (name : String)
  /-- `warn(f"...: file has changed since snapshot ...")`. -/
  | warnChanged (name savedAt : String)
  /-- `print(result.stdout[:2000])`. -/
  | outDiff (text : String)
  /-- `err(f"Snapshot #... not found")`. -/
  | errSnapshotNotFound (sid : Nat)
  /-- `warn(f"Current version backed up to ....pre-restore")`. -/
  | warnPreRestore (p : Path)
  /-- `ok(f"Restored ... from snapshot #... (...)")`. -/
  | okRestored (name : String) (sid : Nat) (savedAt : String)
  /-- `ok(f"Manifest exported to ... (... entries)")`. -/
  | okExported (count : Nat)
  /-- `ok(f"Imported .../... entries")`. -/
  | okImported (imported total : Nat)
deriving DecidableEq, Repr

/-- Python string slicing `s[:n]` (by code points). -/
def strTake (n : Nat) (s : String) : String := String.mk (s.toList.take n)

/-- The result of one command: new state, messages in emission order,
and whether the Python code would end in an uncaught exception. -/
structure CmdOut where
  st : State
  msgs : List Msg
  crashed : Bool
deriving DecidableEq, Repr

/-! ### Commands -/

/-- Arguments of `register` (paths already resolved: `expanduser` /
`resolve` string normalization belongs to the out-of-scope CLI layer). -/
structure RegisterArgs where
  name : String
  source : Path
  target : Path
  category : String
  description : String
  auto : Bool

/-- `cmd_register`. On an invalid category the source `err`s and calls
`sys.exit(1)`; on a duplicate name the IntegrityError is caught and
reported. -/
def cmd_register (st : State) (a : RegisterArgs) : CmdOut :=
  if (CATEGORIES.contains a.category) = false then
    ⟨st, [.errBadCategory a.category], false⟩
  else
    match dbInsertDotfile st.db a.name a.source a.target a.category
        a.description (if a.auto then 1 else 0) with
    | none => ⟨st, [.errDuplicate a.name], false⟩
    | some db1 => ⟨{ st with db := db1 }, [.okRegistered a.name], false⟩

/-- `cmd_link`. -/
def cmd_link (st : State) (eid : Nat) : CmdOut :=
  match findEntry st.db eid with
  | none => ⟨st, [.errEntryNotFound eid], false⟩
  | some e =>
    let target := e.target_path
    let source := e.source_path
    if fsExists st.fs source = false then
      ⟨st, [.errSourceMissing source], false⟩
    else
      match mkdirParents st.fs target with
      | none => ⟨st, [], true⟩
      | some fs1 =>
        if fsExists fs1 target || fsIsSymlink fs1 target then
          if fsIsSymlink fs1 target && (fsReadlink fs1 target == some source) then
            ⟨{ st with fs := fs1 }, [.okAlreadyLinked target], false⟩
          else
            let backup := bakPath target
            match fsMove fs1 target backup with
            | none => ⟨{ st with fs := fs1 }, [], true⟩
            | some fs2 =>
              match fsSymlink fs2 source target with
              | none => ⟨{ st with fs := fs2 }, [.warnBackedUp backup], true⟩
              | some fs3 =>
                ⟨{ st with fs := fs3 },
                 [.warnBackedUp backup, .okLinked target source], false⟩
        else
          match fsSymlink fs1 source target with
          | none => ⟨{ st with fs := fs1 }, [], true⟩
          | some fs2 => ⟨{ st with fs := fs2 }, [.okLinked target source], false⟩

/-- `cmd_backup` (`now` is `datetime.now().isoformat()`). -/
def cmd_backup (st : State) (eid : Nat) (notes now : String) : CmdOut :=
  match findEntry st.db eid with
  | none => ⟨st, [.errEntryNotFound eid], false⟩
  | some e =>
    if fsExists st.fs e.source_path = false then
      ⟨st, [.errSourceMissing e.source_path], false⟩
    else
      match readBytes st.fs e.source_path with
      | none => ⟨st, [], true⟩
      | some content =>
        let h := sha256hex content
        let b64 := b64encodeStr content
        let db1 := dbInsertSnapshot st.db eid h b64 now notes
        ⟨{ st with db := db1 }, [.okSnapshotSaved e.name h], false⟩

/-- The external `diff -u old current` collaborator: `none` models the
binary being absent (the `subprocess.run` call raises FileNotFoundError,
which `cmd_diff` does not catch); `some f` models a run whose captured
stdout is `f oldBytes currentPath fs`. -/
def DiffTool := List Nat → Path → FS → String

/-- `cmd_diff`: read-only on the state (the temp file lives outside the
modelled tree and is unlinked before returning). -/
def cmd_diff (st : State) (dt : Option DiffTool) (eid : Nat) : CmdOut :=
  match findEntry st.db eid with
  | none => ⟨st, [.errEntryNotFound eid], false⟩
  | some e =>
    match latestSnapshot st.db eid with
    | none => ⟨st, [.warnNoSnapshots e.name], false⟩
    | some snap =>
      let currentHash := file_hash st.fs e.source_path
      if currentHash = snap.content_hash then
        ⟨st, [.okNoChanges e.name], false⟩
      else
        match dt with
        | none => ⟨st, [.warnChanged e.name (strTake 19 snap.saved_at)], true⟩
        | some f =>
          let stdout := f (b64decodeStr snap.content_b64) e.source_path st.fs
          ⟨st,
           .warnChanged e.name (strTake 19 snap.saved_at) ::
             (if stdout = "" then [] else [.outDiff (strTake 2000 stdout)]),
           false⟩

/-- `cmd_restore`. -/
def cmd_restore (st : State) (eid sid : Nat) : CmdOut :=
  match findEntry st.db eid with
  | none => ⟨st, [.errEntryNotFound eid], false⟩
  | some e =>
    match findSnapshot st.db sid with
    | none => ⟨st, [.errSnapshotNotFound sid], false⟩
    | some snap =>
      let content := b64decodeStr snap.content_b64
      let path := e.source_path
      if fsExists st.fs path then
        match fsCopy st.fs path (preRestorePath path) with
        | none => ⟨st, [], true⟩
        | some fs1 =>
          match writeBytes fs1 path content with
          | none =>
            ⟨{ st with fs := fs1 }, [.warnPreRestore (preRestorePath path)], true⟩
          | some fs2 =>
            ⟨{ st with fs := fs2 },
             [.warnPreRestore (preRestorePath path),
              .okRestored e.name snap.id (strTake 19 snap.saved_at)], false⟩
      else
        match writeBytes st.fs path content with
        | none => ⟨st, [], true⟩
        | some fs2 =>
          ⟨{ st with fs := fs2 },
           [.okRestored e.name snap.id (strTake 19 snap.saved_at)], false⟩

/-! ### Manifest exchange -/

/-- One JSON object of the manifest document. A field that is absent in
the object is `none`; malformed items (missing required fields) are
represented the same way, since the source's only per-item failure mode
is the `KeyError` on `item["name"]`, `item["source_path"]`,
`item["target_path"]`. -/
structure ManifestItem where
  id : Option Nat := none
  name : Option String := none
  source_path : Option Path := none
  target_path : Option Path := none
  category : Option String := none
  description : Option String := none
  auto_update : Option Nat := none
deriving DecidableEq, Repr

/-- `dict(r)` on a `dotfiles` row: every column, `id` included. -/
def entryToItem (e : DotfileEntry) : ManifestItem :=
  ⟨some e.id, some e.name, some e.source_path, some e.target_path,
   some e.category, some e.description, some e.auto_update⟩

/-- The `ORDER BY category, name` comparison. -/
def entryLe (a b : DotfileEntry) : Bool :=
  strLt a.category b.category ||
    (a.category == b.category && !strLt b.name a.name)

/-- `SELECT * FROM dotfiles ORDER BY category, name`. -/
def sortedEntries (db : DB) : List DotfileEntry :=
  db.dotfiles.mergeSort entryLe

/-- `cmd_export_manifest`: the document written to the output file,
plus the report. (The write of the JSON text itself is the out-of-scope
serialization of this document.) -/
def cmd_export_manifest (db : DB) : List ManifestItem × List Msg :=
  let data := (sortedEntries db).map entryToItem
  (data, [.okExported data.length])

def defaultCategory : String := "tool"

def defaultDescription : String := ""

/-- One iteration of the import loop: `none` means the `try` body raised
(KeyError on a required field) and the item is skipped without counting;
`some db'` means `imported += 1` ran, whether or not `INSERT OR IGNORE`
actually inserted. -/
def importItem (db : DB) (it : ManifestItem) : Option DB :=
  match it.name, it.source_path, it.target_path with
  | some n, some s, some t =>
    some (match dbInsertDotfile db n s t (it.category.getD defaultCategory)
              (it.description.getD defaultDescription) (it.auto_update.getD 0) with
          | some db1 => db1
          | none => db)
  | _, _, _ => none

/-- One step of the import loop fold. -/
def importStep (acc : DB × Nat) (it : ManifestItem) : DB × Nat :=
  match importItem acc.1 it with
  | some db1 => (db1, acc.2 + 1)
  | none => acc

/-- `cmd_import_manifest` on an already-parsed document. -/
def cmd_import_manifest (st : State) (data : List ManifestItem) :
    State × List Msg :=
  ({ st with db := (data.foldl importStep (st.db, 0)).1 },
   [.okImported (data.foldl importStep (st.db, 0)).2 data.length])

/-! ### Concrete example states (used by counterexamples and witnesses) -/

/-- Entry 1 and entry 2 registered; the only snapshot (id 1) belongs to
entry 2 and captured bytes `[1, 2, 3]`; both source files exist. -/
def stC1 : State :=
  ⟨⟨[⟨1, "a", ["s1"], ["t1"], "tool", "", 0⟩,
     ⟨2, "b", ["s2"], ["t2"], "tool", "", 0⟩],
    [⟨1, 2, sha256hex [1, 2, 3], b64encodeStr [1, 2, 3], "2024", ""⟩],
    3, 2⟩,
   [(["s1"], .file [9]), (["s2"], .file [1, 2, 3])]⟩

/-- One registered entry whose source file holds `[10, 20]`. -/
def stC2w : State :=
  ⟨⟨[⟨1, "a", ["s1"], ["t1"], "tool", "", 0⟩], [], 2, 1⟩,
   [(["s1"], .file [10, 20])]⟩

/-- A well-formed manifest item. -/
def itC3 : ManifestItem :=
  { name := some "x", source_path := some ["sx"], target_path := some ["tx"] }

/-- A manifest item missing `target_path`. -/
def itC3bad : ManifestItem :=
  { name := some "y", source_path := some ["sy"] }

/-- The empty store over an empty filesystem. -/
def stEmpty : State := ⟨⟨[], [], 1, 1⟩, []⟩

/-- One entry named `zshrc` already registered. -/
def stC5w : State :=
  ⟨⟨[⟨1, "zshrc", ["a"], ["b"], "shell", "", 0⟩], [], 2, 1⟩, []⟩

/-- A registration request re-using the name `zshrc`. -/
def regC5w : RegisterArgs := ⟨"zshrc", ["src"], ["dst"], "shell", "", false⟩

/-- One entry with two snapshots tied on `saved_at` (ids 1 and 2), the
source file currently matching snapshot 1's content `[5]`. -/
def stC6w : State :=
  ⟨⟨[⟨1, "a", ["s1"], ["t1"], "tool", "", 0⟩],
    [⟨1, 1, sha256hex [5], b64encodeStr [5], "2024-02", ""⟩,
     ⟨2, 1, sha256hex [6], b64encodeStr [6], "2024-02", ""⟩],
    2, 3⟩,
   [(["s1"], .file [5])]⟩

/-- One registered entry whose source path does not exist. -/
def stC7w : State :=
  ⟨⟨[⟨1, "a", ["src"], ["home", "t"], "tool", "", 0⟩], [], 2, 1⟩, []⟩

/-- A one-file filesystem for hashing. -/
def fsC8w : FS := [(["f"], .file [1])]

/-- Two entries in distinct categories. -/
def stC9w : State :=
  ⟨⟨[⟨1, "zshrc", ["a"], ["b"], "shell", "", 1⟩,
     ⟨2, "gitconfig", ["c"], ["d"], "git", "desc", 0⟩], [], 3, 1⟩, []⟩

/-- One entry with one snapshot of content `[5]`, while the source file
is absent from the filesystem. -/
def stC10w : State :=
  ⟨⟨[⟨1, "a", ["s1"], ["t1"], "tool", "", 0⟩],
    [⟨1, 1, sha256hex [5], b64encodeStr [5], "2024-02", ""⟩],
    2, 2⟩,
   []⟩

/-- A diff collaborator producing a fixed single-line output. -/
def dtFixed : DiffTool := fun _ _ _ => "DIFF"

/-- The identity of a dotfile entry minus its store-assigned id. -/
def projEntry (e : DotfileEntry) : String × Path × Path × String × String × Nat :=
  (e.name, e.source_path, e.target_path, e.category, e.description, e.auto_update)

/-- The corresponding view of a manifest item (defaults as on import). -/
def projItem (it : ManifestItem) : String × Path × Path × String × String × Nat :=
  (it.name.getD defaultDescription, it.source_path.getD [],
   it.target_path.getD [], it.category.getD defaultCategory,
   it.description.getD defaultDescription, it.auto_update.getD 0)

/-! ## Lemma layer -/

theorem charSextet_sextetChar {n : Nat} (h : n < 64) :
    charSextet (sextetChar n) = n := by
  have : ∀ m : Fin 64, charSextet (sextetChar m.val) = m.val := by decide
  exact this ⟨n, h⟩

theorem sextetChar_ne_eq {n : Nat} (h : n < 64) : sextetChar n ≠ '=' := by
  have : ∀ m : Fin 64, sextetChar m.val ≠ '=' := by decide
  exact this ⟨n, h⟩

/-- Round trip of the base64 model: decoding an encoding recovers the
original byte list, provided every byte is in range. -/
theorem b64decode_b64encode (bs : List Nat) (h : ∀ b ∈ bs, b < 256) :
    b64decode (b64encode bs) = bs := by
  induction bs using b64encode.induct with
  | case1 => simp [b64encode, b64decode]
  | case2 b0 =>
    have hb0 : b0 < 256 := h b0 (by simp)
    have e0 : charSextet (sextetChar (b0 / 4)) = b0 / 4 :=
      charSextet_sextetChar (by omega)
    have e1 : charSextet (sextetChar (b0 % 4 * 16)) = b0 % 4 * 16 :=
      charSextet_sextetChar (by omega)
    simp [b64encode, b64decode, e0, e1]
    omega
  | case3 b0 b1 =>
    have hb0 : b0 < 256 := h b0 (by simp)
    have hb1 : b1 < 256 := h b1 (by simp)
    have e0 : charSextet (sextetChar (b0 / 4)) = b0 / 4 :=
      charSextet_sextetChar (by omega)
    have e1 : charSextet (sextetChar (b0 % 4 * 16 + b1 / 16)) = b0 % 4 * 16 + b1 / 16 :=
      charSextet_sextetChar (by omega)
    have e2 : charSextet (sextetChar (b1 % 16 * 4)) = b1 % 16 * 4 :=
      charSextet_sextetChar (by omega)
    have ne2 : ¬ sextetChar (b1 % 16 * 4) = '=' :=
      sextetChar_ne_eq (by omega)
    simp [b64encode, b64decode, e0, e1, e2, ne2]
    constructor <;> omega
  | case4 b0 b1 b2 rest ih =>
    have hb0 : b0 < 256 := h b0 (by simp)
    have hb1 : b1 < 256 := h b1 (by simp)
    have hb2 : b2 < 256 := h b2 (by simp)
    have hrest : ∀ b ∈ rest, b < 256 := by
      intro b hb; exact h b (by simp [hb])
    have e0 : charSextet (sextetChar (b0 / 4)) = b0 / 4 :=
      charSextet_sextetChar (by omega)
    have e1 : charSextet (sextetChar (b0 % 4 * 16 + b1 / 16)) = b0 % 4 * 16 + b1 / 16 :=
      charSextet_sextetChar (by omega)
    have e2 : charSextet (sextetChar (b1 % 16 * 4 + b2 / 64)) = b1 % 16 * 4 + b2 / 64 :=
      charSextet_sextetChar (by omega)
    have e3 : charSextet (sextetChar (b2 % 64)) = b2 % 64 :=
      charSextet_sextetChar (by omega)
    have ne2 : ¬ sextetChar (b1 % 16 * 4 + b2 / 64) = '=' :=
      sextetChar_ne_eq (by omega)
    have ne3 : ¬ sextetChar (b2 % 64) = '=' :=
      sextetChar_ne_eq (by omega)
    simp [b64encode, b64decode, e0, e1, e2, e3, ne2, ne3, ih hrest]
    refine ⟨by omega, by omega, by omega⟩

theorem b64decodeStr_b64encodeStr (bs : List Nat) (h : ∀ b ∈ bs, b < 256) :
    b64decodeStr (b64encodeStr bs) = bs := by
  unfold b64decodeStr b64encodeStr
  rw [show (String.mk (b64encode bs)).toList = b64encode bs from rfl]
  exact b64decode_b64encode bs h

theorem wordHex_length (n : Nat) : (wordHex n).length = 8 := rfl

/-- A hex digest is always 64 characters: it renders 256 bits. -/
theorem sha256hex_length (msg : List Nat) : (sha256hex msg).length = 64 := by
  unfold sha256hex
  simp [String.length_append, wordHex_length]

/-- The sentinel digest is never a real digest. -/
theorem sha256hex_ne_empty (msg : List Nat) : sha256hex msg ≠ "" := by
  intro hcontra
  have h1 : (sha256hex msg).length = 64 := sha256hex_length msg
  rw [hcontra] at h1
  simp at h1

theorem strLtb_iff_lex : ∀ (as bs : List Char),
    strLtb as bs = true ↔ List.Lex (· < ·) as bs := by
  intro as
  induction as with
  | nil =>
    intro bs
    cases bs with
    | nil => exact Iff.intro (fun h => nomatch h) (fun h => nomatch h)
    | cons b bs =>
      simp only [strLtb, true_iff]
      exact List.Lex.nil
  | cons a as ih =>
    intro bs
    cases bs with
    | nil => exact Iff.intro (fun h => nomatch h) (fun h => nomatch h)
    | cons b bs =>
      simp only [strLtb]
      by_cases hab : a < b
      · rw [if_pos hab]
        simp only [true_iff]
        exact List.Lex.rel hab
      · rw [if_neg hab]
        by_cases heq : a = b
        · subst heq
          rw [if_pos rfl, ih bs]
          constructor
          · exact fun h => List.Lex.cons h
          · intro h
            cases h with
            | cons h => exact h
            | rel h => exact absurd h (lt_irrefl a)
        · rw [if_neg heq]
          constructor
          · intro h; exact nomatch h
          · intro h
            cases h with
            | cons h => exact (heq rfl).elim
            | rel h => exact (hab h).elim

theorem strLt_iff (s t : String) : strLt s t = true ↔ s < t := by
  have h1 : s < t ↔ s.toList < t.toList := String.lt_iff_toList_lt
  have h2 : (s.toList < t.toList) ↔ List.Lex (· < ·) s.toList t.toList := Iff.rfl
  rw [h1, h2]
  exact strLtb_iff_lex _ _

theorem strLt_false_iff (s t : String) : strLt s t = false ↔ t ≤ s := by
  rw [← not_lt, ← strLt_iff]
  simp

/-! ### Lemmas: the filesystem map -/

theorem fsLookup_fsErase_ne (fs : FS) (p q : Path) (h : q ≠ p) :
    fsLookup (fsErase fs p) q = fsLookup fs q := by
  induction fs with
  | nil => rfl
  | cons hd rest ih =>
    by_cases hq : hd.1 = p
    · simp only [fsErase, List.filter] at ih ⊢
      rw [show (decide (hd.1 ≠ p)) = false by simp [hq]]
      simp only [fsLookup]
      rw [if_neg (by rw [hq]; exact fun hc => h hc.symm)]
      exact ih
    · simp only [fsErase, List.filter] at ih ⊢
      rw [show (decide (hd.1 ≠ p)) = true by simp [hq]]
      simp only [fsLookup]
      by_cases he : hd.1 = q
      · rw [if_pos he, if_pos he]
      · rw [if_neg he, if_neg he]
        exact ih

theorem fsLookup_fsSet_self (fs : FS) (p : Path) (n : Node) :
    fsLookup (fsSet fs p n) p = some n := by
  simp [fsSet, fsLookup]

theorem fsLookup_fsSet_ne (fs : FS) (p q : Path) (n : Node) (h : q ≠ p) :
    fsLookup (fsSet fs p n) q = fsLookup fs q := by
  simp only [fsSet, fsLookup]
  rw [if_neg (fun hc => h hc.symm)]
  exact fsLookup_fsErase_ne fs p q h

/-! ### Lemmas: symlink resolution on non-link nodes -/

theorem resolveNode_succ (fs : FS) (fuel : Nat) (p : Path) :
    resolveNode fs (fuel + 1) p =
      match fsLookup fs p with
      | some (.symlink t) => resolveNode fs fuel t
      | other => other := rfl

theorem resolveNode_of_file (fs : FS) (fuel : Nat) (p : Path) (c : List Nat)
    (h : fsLookup fs p = some (.file c)) :
    resolveNode fs (fuel + 1) p = some (.file c) := by
  rw [resolveNode_succ, h]

theorem fsExists_of_file (fs : FS) (p : Path) (c : List Nat)
    (h : fsLookup fs p = some (.file c)) : fsExists fs p = true := by
  unfold fsExists
  rw [show (40 : Nat) = 39 + 1 from rfl, resolveNode_of_file fs 39 p c h]
  rfl

theorem readBytes_of_file (fs : FS) (p : Path) (c : List Nat)
    (h : fsLookup fs p = some (.file c)) : readBytes fs p = some c := by
  unfold readBytes
  rw [show (40 : Nat) = 39 + 1 from rfl, resolveNode_of_file fs 39 p c h]

theorem resolvePath_succ (fs : FS) (fuel : Nat) (p : Path) :
    resolvePath fs (fuel + 1) p =
      match fsLookup fs p with
      | some (.symlink t) => resolvePath fs fuel t
      | _ => some p := rfl

theorem writeBytes_of_file (fs : FS) (p : Path) (c d : List Nat)
    (h : fsLookup fs p = some (.file c)) :
    writeBytes fs p d = some (fsSet fs p (.file d)) := by
  unfold writeBytes
  rw [show (40 : Nat) = 39 + 1 from rfl, resolvePath_succ, h]
  simp [h]

theorem writeBytes_of_absent (fs : FS) (p : Path) (d : List Nat)
    (h : fsLookup fs p = none) :
    writeBytes fs p d = some (fsSet fs p (.file d)) := by
  unfold writeBytes
  rw [show (40 : Nat) = 39 + 1 from rfl, resolvePath_succ, h]
  simp [h]

/-! ### Lemmas: `mkdir -p` -/

theorem withSuffix_ne (p : Path) (suf : String) (hs : suf.length ≠ 0) :
    withSuffix p suf ≠ p := by
  intro heq
  cases p with
  | nil => simp [withSuffix] at heq
  | cons a as =>
    have h2 := congrArg List.getLast? heq
    unfold withSuffix at h2
    rw [List.getLast?_concat] at h2
    have h3 : (a :: as).getLastD default = (a :: as).getLast?.getD default :=
      List.getLastD_eq_getLast? default (a :: as)
    obtain ⟨x, hx⟩ : ∃ x, (a :: as).getLast? = some x := by
      cases hl : (a :: as).getLast? with
      | none => rw [List.getLast?_eq_none_iff] at hl; cases hl
      | some x => exact ⟨x, rfl⟩
    rw [hx] at h2 h3
    simp only [Option.getD_some] at h3
    have h4 : (a :: as).getLastD default ++ suf = x := by
      injection h2
    rw [h3] at h4
    have h5 := congrArg String.length h4
    rw [String.length_append] at h5
    omega

theorem preRestorePath_ne (p : Path) : preRestorePath p ≠ p :=
  withSuffix_ne p preRestoreSuffix (by decide)

/-! ### Lemmas: the `ORDER BY saved_at DESC LIMIT 1` fold -/

theorem foldMax_mem (l : List Snapshot) (b : Snapshot) :
    l.foldl (fun best x => if strLt best.saved_at x.saved_at then x else best) b = b ∨
    l.foldl (fun best x => if strLt best.saved_at x.saved_at then x else best) b ∈ l := by
  induction l generalizing b with
  | nil => exact Or.inl rfl
  | cons y t ih =>
    simp only [List.foldl_cons]
    by_cases hlt : strLt b.saved_at y.saved_at = true
    · rw [if_pos hlt]
      cases ih y with
      | inl he => exact Or.inr (by rw [he]; exact List.mem_cons_self y t)
      | inr hm => exact Or.inr (List.mem_cons_of_mem y hm)
    · rw [if_neg hlt]
      cases ih b with
      | inl he => exact Or.inl he
      | inr hm => exact Or.inr (List.mem_cons_of_mem y hm)

theorem foldMax_le (l : List Snapshot) (b : Snapshot) :
    b.saved_at ≤
      (l.foldl (fun best x => if strLt best.saved_at x.saved_at then x else best) b).saved_at ∧
    ∀ x ∈ l, x.saved_at ≤
      (l.foldl (fun best x => if strLt best.saved_at x.saved_at then x else best) b).saved_at := by
  induction l generalizing b with
  | nil => exact ⟨le_refl _, by intro x hx; cases hx⟩
  | cons y t ih =>
    simp only [List.foldl_cons]
    by_cases hlt : strLt b.saved_at y.saved_at = true
    · rw [if_pos hlt]
      obtain ⟨h1, h2⟩ := ih y
      have hby : b.saved_at < y.saved_at := (strLt_iff _ _).mp hlt
      refine ⟨le_trans (le_of_lt hby) h1, ?_⟩
      intro x hx
      cases List.mem_cons.mp hx with
      | inl he => rw [he]; exact h1
      | inr hm => exact h2 x hm
    · rw [if_neg hlt]
      obtain ⟨h1, h2⟩ := ih b
      have hyb : y.saved_at ≤ b.saved_at :=
        (strLt_false_iff _ _).mp (Bool.not_eq_true _ ▸ Bool.of_not_eq_true hlt)
      refine ⟨h1, ?_⟩
      intro x hx
      cases List.mem_cons.mp hx with
      | inl he => rw [he]; exact le_trans hyb h1
      | inr hm => exact h2 x hm

theorem foldMax_first (l : List Snapshot) (b : Snapshot)
    (hpw : (b :: l).Pairwise (fun u v => u.id < v.id)) :
    ∀ x ∈ b :: l, x.saved_at =
      (l.foldl (fun best x => if strLt best.saved_at x.saved_at then x else best) b).saved_at →
      (l.foldl (fun best x => if strLt best.saved_at x.saved_at then x else best) b).id ≤ x.id := by
  induction l generalizing b with
  | nil =>
    intro x hx _
    simp only [List.foldl_nil]
    cases List.mem_cons.mp hx with
    | inl he => rw [he]
    | inr hm => cases hm
  | cons y t ih =>
    have hpw' : (y :: t).Pairwise (fun u v => u.id < v.id) := hpw.tail
    have hby : b.id < y.id := (List.pairwise_cons.mp hpw).1 y (List.mem_cons_self y t)
    have hbt : ∀ z ∈ t, b.id < z.id := fun z hz =>
      (List.pairwise_cons.mp hpw).1 z (List.mem_cons_of_mem y hz)
    have hyt : ∀ z ∈ t, y.id < z.id := (List.pairwise_cons.mp hpw').1
    have htt : t.Pairwise (fun u v => u.id < v.id) := hpw'.tail
    intro x hx hsx
    simp only [List.foldl_cons] at hsx ⊢
    by_cases hlt : strLt b.saved_at y.saved_at = true
    · rw [if_pos hlt] at hsx ⊢
      have hpwy : (y :: t).Pairwise (fun u v => u.id < v.id) := hpw'
      have ihy := ih y hpwy
      cases List.mem_cons.mp hx with
      | inl he =>
        -- x = b: impossible tie, b.saved_at < y.saved_at ≤ max
        have hby' : b.saved_at < y.saved_at := (strLt_iff _ _).mp hlt
        have hmax := (foldMax_le t y).1
        rw [he] at hsx
        exact absurd hsx (by exact ne_of_lt (lt_of_lt_of_le hby' hmax))
      | inr hm => exact ihy x hm hsx
    · rw [if_neg hlt] at hsx ⊢
      have hpwb : (b :: t).Pairwise (fun u v => u.id < v.id) :=
        List.pairwise_cons.mpr ⟨hbt, htt⟩
      have ihb := ih b hpwb
      have hyb : y.saved_at ≤ b.saved_at :=
        (strLt_false_iff _ _).mp (Bool.not_eq_true _ ▸ Bool.of_not_eq_true hlt)
      cases List.mem_cons.mp hx with
      | inl he => exact ihb x (by rw [he]; exact List.mem_cons_self b t) hsx
      | inr hm =>
        cases List.mem_cons.mp hm with
        | inl hey =>
          -- x = y, tie with the max: then b also ties, and b.id < y.id
          have hmaxb := (foldMax_le t b).1
          rw [hey] at hsx
          have hbtie : b.saved_at =
              (t.foldl (fun best x => if strLt best.saved_at x.saved_at then x else best) b).saved_at :=
            le_antisymm hmaxb (by rw [← hsx]; exact hyb)
          have hmb := ihb b (List.mem_cons_self b t) hbtie
          rw [hey]
          exact le_trans hmb (le_of_lt hby)
        | inr hmt => exact ihb x (List.mem_cons_of_mem b hmt) hsx

theorem latestSnapshot_spec (db : DB) (eid : Nat) (s : Snapshot)
    (h : latestSnapshot db eid = some s) :
    s ∈ db.snapshots ∧ s.entry_id = eid ∧
      ∀ s' ∈ db.snapshots, s'.entry_id = eid → s'.saved_at ≤ s.saved_at := by
  unfold latestSnapshot at h
  cases hf : db.snapshots.filter (fun s => s.entry_id == eid) with
  | nil => rw [hf] at h; cases h
  | cons s0 rest =>
    rw [hf] at h
    injection h with h
    have hsmem : s = s0 ∨ s ∈ rest := by rw [← h]; exact foldMax_mem rest s0
    have hmemf : s ∈ db.snapshots.filter (fun s => s.entry_id == eid) := by
      rw [hf]
      cases hsmem with
      | inl he => rw [he]; exact List.mem_cons_self s0 rest
      | inr hm => exact List.mem_cons_of_mem s0 hm
    have hsm := List.mem_filter.mp hmemf
    refine ⟨hsm.1, by simpa using hsm.2, ?_⟩
    intro s' hs' heid
    have hs'f : s' ∈ db.snapshots.filter (fun s => s.entry_id == eid) :=
      List.mem_filter.mpr ⟨hs', by simpa using heid⟩
    rw [hf] at hs'f
    obtain ⟨h1, h2⟩ := foldMax_le rest s0
    cases List.mem_cons.mp hs'f with
    | inl he => rw [he, ← h]; exact h1
    | inr hm => rw [← h]; exact h2 s' hm

theorem latestSnapshot_tie (db : DB) (eid : Nat) (s : Snapshot)
    (h : latestSnapshot db eid = some s)
    (hpw : db.snapshots.Pairwise (fun u v => u.id < v.id)) :
    ∀ s' ∈ db.snapshots, s'.entry_id = eid → s'.saved_at = s.saved_at →
      s.id ≤ s'.id := by
  unfold latestSnapshot at h
  cases hf : db.snapshots.filter (fun s => s.entry_id == eid) with
  | nil => rw [hf] at h; cases h
  | cons s0 rest =>
    rw [hf] at h
    injection h with h
    have hpwf : (s0 :: rest).Pairwise (fun u v => u.id < v.id) := by
      rw [← hf]
      exact hpw.sublist (List.filter_sublist _)
    intro s' hs' heid htie
    have hs'f : s' ∈ s0 :: rest := by
      rw [← hf]
      exact List.mem_filter.mpr ⟨hs', by simpa using heid⟩
    rw [← h]
    exact foldMax_first rest s0 hpwf s' hs'f (by rw [htie, ← h])

/-! ### Lemmas: node-kind views of the link-engine predicates -/

theorem strTake_length_le (n : Nat) (s : String) : (strTake n s).length ≤ n := by
  unfold strTake
  show (s.toList.take n).length ≤ n
  exact le_trans (Nat.le_of_eq (List.length_take _ _)) (min_le_left _ _)

/-! ### Lemmas: the link engine -/

theorem importItem_isSome (db : DB) (it : ManifestItem) :
    (importItem db it).isSome =
      (it.name.isSome && it.source_path.isSome && it.target_path.isSome) := by
  cases hn : it.name <;> cases hs : it.source_path <;> cases ht : it.target_path <;>
    simp [importItem, hn, hs, ht]

theorem importItem_entries (db : DB) (it : ManifestItem) (db1 : DB)
    (h : importItem db it = some db1) :
    ∃ tail, db1.dotfiles = db.dotfiles ++ tail := by
  unfold importItem at h
  cases hn : it.name with
  | none => rw [hn] at h; cases h
  | some n =>
    cases hs : it.source_path with
    | none => rw [hn, hs] at h; cases h
    | some s =>
      cases ht : it.target_path with
      | none => rw [hn, hs, ht] at h; cases h
      | some t =>
        rw [hn, hs, ht] at h
        injection h with h
        unfold dbInsertDotfile at h
        by_cases hany : db.dotfiles.any (fun e => e.name == n) = true
        · rw [if_pos hany] at h
          exact ⟨[], by rw [← h]; exact (List.append_nil _).symm⟩
        · rw [if_neg hany] at h
          exact ⟨_, by rw [← h]⟩

theorem importFold_spec (data : List ManifestItem) : ∀ (db : DB) (k : Nat),
    (data.foldl importStep (db, k)).2 =
      k + (data.filter (fun it =>
        it.name.isSome && it.source_path.isSome && it.target_path.isSome)).length ∧
    ∃ tail, (data.foldl importStep (db, k)).1.dotfiles = db.dotfiles ++ tail := by
  induction data with
  | nil =>
    intro db k
    exact ⟨by simp, [], by simp⟩
  | cons it t ih =>
    intro db k
    cases hwf : (it.name.isSome && it.source_path.isSome && it.target_path.isSome) with
    | true =>
      have hsome : (importItem db it).isSome = true := by
        rw [importItem_isSome, hwf]
      cases hi : importItem db it with
      | none => rw [hi] at hsome; cases hsome
      | some db1 =>
        have hstep : importStep (db, k) it = (db1, k + 1) := by
          unfold importStep
          rw [hi]
        simp only [List.foldl_cons, List.filter_cons, hstep, hwf, if_true,
          List.length_cons]
        obtain ⟨hcount, tail1, hent⟩ := ih db1 (k + 1)
        refine ⟨by rw [hcount]; omega, ?_⟩
        obtain ⟨tail0, h0⟩ := importItem_entries db it db1 hi
        exact ⟨tail0 ++ tail1, by rw [hent, h0, List.append_assoc]⟩
    | false =>
      have hnone : importItem db it = none := by
        have hi := importItem_isSome db it
        rw [hwf] at hi
        cases him : importItem db it with
        | none => rfl
        | some db1 => rw [him] at hi; cases hi
      have hstep : importStep (db, k) it = (db, k) := by
        unfold importStep
        rw [hnone]
      simp only [List.foldl_cons, List.filter_cons, hstep, hwf,
        Bool.false_eq_true, if_false]
      exact ih db k

/-- Importing well-formed items with pairwise-distinct names, all fresh
for the store, appends exactly one entry per item (up to ids). -/
theorem importFold_entries_of_fresh (data : List ManifestItem) :
    ∀ (db : DB) (k : Nat),
    (∀ it ∈ data, it.name.isSome ∧ it.source_path.isSome ∧ it.target_path.isSome) →
    (data.map ManifestItem.name).Nodup →
    (∀ it ∈ data, ∀ e2 ∈ db.dotfiles, some e2.name ≠ it.name) →
    (data.foldl importStep (db, k)).1.dotfiles.map projEntry
      = db.dotfiles.map projEntry ++ data.map projItem := by
  induction data with
  | nil =>
    intro db k _ _ _
    simp
  | cons it t ih =>
    intro db k hwf hnodup hfresh
    obtain ⟨hn0, hs0, ht0⟩ := hwf it (List.mem_cons_self it t)
    obtain ⟨n, hn⟩ := Option.isSome_iff_exists.mp hn0
    obtain ⟨sp, hsp⟩ := Option.isSome_iff_exists.mp hs0
    obtain ⟨tp, htp⟩ := Option.isSome_iff_exists.mp ht0
    have hany : db.dotfiles.any (fun e2 => e2.name == n) = false := by
      cases hA : db.dotfiles.any (fun e2 => e2.name == n) with
      | false => rfl
      | true =>
        obtain ⟨e2, he2, hb⟩ := List.any_eq_true.mp hA
        have hne := hfresh it (List.mem_cons_self it t) e2 he2
        rw [hn] at hne
        exact absurd (congrArg some (by simpa using hb)) hne
    have hins : dbInsertDotfile db n sp tp (it.category.getD defaultCategory)
        (it.description.getD defaultDescription) (it.auto_update.getD 0) =
        some { db with
          dotfiles := db.dotfiles ++
            [⟨db.nextDotfileId, n, sp, tp, it.category.getD defaultCategory,
              it.description.getD defaultDescription, it.auto_update.getD 0⟩],
          nextDotfileId := db.nextDotfileId + 1 } := by
      unfold dbInsertDotfile
      rw [if_neg (by rw [hany]; exact fun hcon => nomatch hcon)]
    have hitem : importItem db it = some { db with
        dotfiles := db.dotfiles ++
          [⟨db.nextDotfileId, n, sp, tp, it.category.getD defaultCategory,
            it.description.getD defaultDescription, it.auto_update.getD 0⟩],
        nextDotfileId := db.nextDotfileId + 1 } := by
      unfold importItem
      rw [hn, hsp, htp]
      dsimp only
      rw [hins]
    have hstep : importStep (db, k) it = ({ db with
        dotfiles := db.dotfiles ++
          [⟨db.nextDotfileId, n, sp, tp, it.category.getD defaultCategory,
            it.description.getD defaultDescription, it.auto_update.getD 0⟩],
        nextDotfileId := db.nextDotfileId + 1 }, k + 1) := by
      unfold importStep
      rw [hitem]
    rw [List.map_cons] at hnodup
    have hnodup' := List.nodup_cons.mp hnodup
    have hfresh' : ∀ it' ∈ t, ∀ e2 ∈ ({ db with
        dotfiles := db.dotfiles ++
          [⟨db.nextDotfileId, n, sp, tp, it.category.getD defaultCategory,
            it.description.getD defaultDescription, it.auto_update.getD 0⟩],
        nextDotfileId := db.nextDotfileId + 1 } : DB).dotfiles,
        some e2.name ≠ it'.name := by
      intro it' hit' e2 he2
      rcases List.mem_append.mp he2 with hold | hnew
      · exact hfresh it' (List.mem_cons_of_mem it hit') e2 hold
      · have he2n : e2.name = n := by
          cases List.mem_singleton.mp hnew
          rfl
        rw [he2n, ← hn]
        intro hcon
        exact hnodup'.1 (by rw [hcon]; exact List.mem_map_of_mem ManifestItem.name hit')
    have hrec := ih ({ db with
        dotfiles := db.dotfiles ++
          [⟨db.nextDotfileId, n, sp, tp, it.category.getD defaultCategory,
            it.description.getD defaultDescription, it.auto_update.getD 0⟩],
        nextDotfileId := db.nextDotfileId + 1 }) (k + 1)
      (fun it' hit' => hwf it' (List.mem_cons_of_mem it hit'))
      hnodup'.2 hfresh'
    rw [List.foldl_cons, hstep, hrec]
    have hproj : projEntry ⟨db.nextDotfileId, n, sp, tp,
        it.category.getD defaultCategory, it.description.getD defaultDescription,
        it.auto_update.getD 0⟩ = projItem it := by
      unfold projEntry projItem
      rw [hn, hsp, htp]
      rfl
    simp only [List.map_append, List.map_cons, List.map_nil]
    rw [hproj, List.append_assoc]
    rfl

/-! ## Claims -/

/-- C10: when an entry has a snapshot but its source file is missing or
unreadable, `diff` does not fail and does not treat the hash as
unavailable — the sentinel empty digest can never equal the stored
SHA-256 hash, so the file is always reported as changed and diff
production is still attempted against the missing file. -/
theorem C10_diff_missing_source (st : State) (eid : Nat) (e : DotfileEntry)
    (s : Snapshot) (c : List Nat) (f : DiffTool)
    (he : findEntry st.db eid = some e)
    (hs : latestSnapshot st.db eid = some s)
    (hhash : s.content_hash = sha256hex c)
    (hmiss : readBytes st.fs e.source_path = none) :
    file_hash st.fs e.source_path = "" ∧
    file_hash st.fs e.source_path ≠ s.content_hash ∧
    cmd_diff st (some f) eid =
      ⟨st, .warnChanged e.name (strTake 19 s.saved_at) ::
        (if f (b64decodeStr s.content_b64) e.source_path st.fs = "" then []
         else [.outDiff (strTake 2000
           (f (b64decodeStr s.content_b64) e.source_path st.fs))]),
       false⟩ := by
  have hfh : file_hash st.fs e.source_path = "" := by
    unfold file_hash
    rw [hmiss]
  have hne : file_hash st.fs e.source_path ≠ s.content_hash := by
    rw [hfh, hhash]
    exact fun hcon => sha256hex_ne_empty c hcon.symm
  refine ⟨hfh, hne, ?_⟩
  unfold cmd_diff
  rw [he, hs]
  dsimp only
  rw [if_neg hne]

theorem C10_diff_missing_source_witness :
    file_hash stC10w.fs ["s1"] = "" ∧
    file_hash stC10w.fs ["s1"] ≠ sha256hex [5] ∧
    cmd_diff stC10w (some dtFixed) 1 =
      ⟨stC10w, [.warnChanged "a" (strTake 19 "2024-02"),
        .outDiff (strTake 2000 "DIFF")], false⟩ :=
  C10_diff_missing_source stC10w 1 ⟨1, "a", ["s1"], ["t1"], "tool", "", 0⟩
    ⟨1, 1, sha256hex [5], b64encodeStr [5], "2024-02", ""⟩ [5] dtFixed
    (by rfl) (by rfl) (by rfl) (by rfl)

/-- C1 (counterexample): the snapshot lookup of `restore` is not scoped
to the entry — with entry 1 present, and the only snapshot (global id 1)
belonging to entry 2, `restore 1 1` does not fail with NotFound: it
reports success and overwrites entry 1's source file with entry 2's
captured bytes. -/
theorem C1_restore_scoping_counterexample :
    (∀ s ∈ stC1.db.snapshots, s.entry_id ≠ 1) ∧
    (findEntry stC1.db 1).isSome = true ∧
    (cmd_restore stC1 1 1).msgs =
      [.warnPreRestore ["s1.pre-restore"], .okRestored "a" 1 "2024"] ∧
    (cmd_restore stC1 1 1).crashed = false ∧
    readBytes (cmd_restore stC1 1 1).st.fs ["s1"] = some [1, 2, 3] := by
  refine ⟨by decide, by decide, ?_, ?_, ?_⟩ <;> rfl

/-- C1 (amended): `restore` fails with NotFound exactly when the entry id
is absent or no snapshot with the given *global* id exists; a snapshot
whose `entry_id` differs from the given entry is still used — the
NotFound errors are never emitted once both lookups succeed. -/
theorem C1_restore_notfound (st : State) (eid sid : Nat) :
    (findEntry st.db eid = none →
      cmd_restore st eid sid = ⟨st, [.errEntryNotFound eid], false⟩) ∧
    (∀ e, findEntry st.db eid = some e → findSnapshot st.db sid = none →
      cmd_restore st eid sid = ⟨st, [.errSnapshotNotFound sid], false⟩) ∧
    (∀ e s, findEntry st.db eid = some e → findSnapshot st.db sid = some s →
      Msg.errEntryNotFound eid ∉ (cmd_restore st eid sid).msgs ∧
      Msg.errSnapshotNotFound sid ∉ (cmd_restore st eid sid).msgs) := by
  refine ⟨?_, ?_, ?_⟩
  · intro hnone
    unfold cmd_restore
    rw [hnone]
  · intro e he hsnone
    unfold cmd_restore
    rw [he, hsnone]
  · intro e s he hs
    unfold cmd_restore
    rw [he, hs]
    by_cases hex : fsExists st.fs e.source_path = true
    · simp only [hex, if_true]
      cases hc : fsCopy st.fs e.source_path (preRestorePath e.source_path) with
      | none => simp [hc]
      | some fs1 =>
        cases hw : writeBytes fs1 e.source_path (b64decodeStr s.content_b64) with
        | none => simp [hc, hw]
        | some fs2 => simp [hc, hw]
    · rw [Bool.not_eq_true] at hex
      simp only [hex, Bool.false_eq_true, if_false]
      cases hw : writeBytes st.fs e.source_path (b64decodeStr s.content_b64) with
      | none => simp [hw]
      | some fs2 => simp [hw]

theorem C1_restore_notfound_witness :
    cmd_restore stC1 99 1 = ⟨stC1, [.errEntryNotFound 99], false⟩ ∧
    cmd_restore stC1 1 99 = ⟨stC1, [.errSnapshotNotFound 99], false⟩ ∧
    (Msg.errEntryNotFound 1 ∉ (cmd_restore stC1 1 1).msgs ∧
     Msg.errSnapshotNotFound 1 ∉ (cmd_restore stC1 1 1).msgs) :=
  ⟨(C1_restore_notfound stC1 99 1).1 (by decide),
   (C1_restore_notfound stC1 1 99).2.1
     ⟨1, "a", ["s1"], ["t1"], "tool", "", 0⟩ (by decide) (by decide),
   (C1_restore_notfound stC1 1 1).2.2
     ⟨1, "a", ["s1"], ["t1"], "tool", "", 0⟩
     ⟨1, 2, sha256hex [1, 2, 3], b64encodeStr [1, 2, 3], "2024", ""⟩
     (by decide) (by rfl)⟩

/-- C3 (counterexample): on a manifest with the same well-formed item
twice, the operation reports `Imported 2/2` although only one entry was
actually inserted — the reported count is the number of attempted
inserts, not of rows added. -/
theorem C3_import_count_counterexample :
    (cmd_import_manifest stEmpty [itC3, itC3]).2 = [.okImported 2 2] ∧
    (cmd_import_manifest stEmpty [itC3, itC3]).1.db.dotfiles.length = 1 := by
  exact ⟨by rfl, by rfl⟩

/-- C3 (amended): `import` attempts an insert for each item and never
aborts: it always returns normally with a report `imported/total`, an
item missing `name`, `source_path` or `target_path` is skipped (failing
only that item), and the reported count is the number of items carrying
all three required fields — counting duplicates that the store's
`INSERT OR IGNORE` silently dropped, so it may exceed the number of rows
actually added, while previously stored entries are always preserved. -/
theorem C3_import_report (st : State) (data : List ManifestItem) :
    (cmd_import_manifest st data).2 =
      [.okImported
        (data.filter (fun it =>
          it.name.isSome && it.source_path.isSome && it.target_path.isSome)).length
        data.length] ∧
    ∃ tail, (cmd_import_manifest st data).1.db.dotfiles =
      st.db.dotfiles ++ tail := by
  obtain ⟨hcount, tail, hent⟩ := importFold_spec data st.db 0
  unfold cmd_import_manifest
  exact ⟨by rw [hcount]; simp, tail, hent⟩

/-- C2: round trip — `backup` capturing the source file's bytes `c`,
then overwriting the source file with arbitrary other bytes `d`, then
`restore` from the created snapshot completes normally and leaves the
source file holding exactly `c`, byte for byte. -/
theorem C2_backup_restore_roundtrip (st : State) (eid : Nat) (e : DotfileEntry)
    (c d : List Nat) (notes now : String) (fs2 : FS)
    (he : findEntry st.db eid = some e)
    (hc : fsLookup st.fs e.source_path = some (.file c))
    (hbytes : ∀ b ∈ c, b < 256)
    (hfresh : ∀ s ∈ st.db.snapshots, s.id ≠ st.db.nextSnapshotId)
    (hpre : fsLookup st.fs (preRestorePath e.source_path) = none)
    (hover : writeBytes (cmd_backup st eid notes now).st.fs e.source_path d
      = some fs2) :
    readBytes (cmd_restore ⟨(cmd_backup st eid notes now).st.db, fs2⟩ eid
        st.db.nextSnapshotId).st.fs e.source_path = some c ∧
    (cmd_restore ⟨(cmd_backup st eid notes now).st.db, fs2⟩ eid
        st.db.nextSnapshotId).crashed = false := by
  -- the backup step
  have hB : cmd_backup st eid notes now =
      ⟨⟨dbInsertSnapshot st.db eid (sha256hex c) (b64encodeStr c) now notes, st.fs⟩,
       [.okSnapshotSaved e.name (sha256hex c)], false⟩ := by
    unfold cmd_backup
    rw [he]
    dsimp only
    rw [fsExists_of_file st.fs e.source_path c hc,
        readBytes_of_file st.fs e.source_path c hc]
    rw [if_neg (fun hcon => nomatch hcon)]
  rw [hB] at hover ⊢
  dsimp only at hover ⊢
  -- the overwrite step
  rw [writeBytes_of_file st.fs e.source_path c d hc] at hover
  injection hover with hover
  subst hover
  -- the restore step
  have heB : findEntry
      (dbInsertSnapshot st.db eid (sha256hex c) (b64encodeStr c) now notes) eid
      = some e := he
  have hsB : findSnapshot
      (dbInsertSnapshot st.db eid (sha256hex c) (b64encodeStr c) now notes)
      st.db.nextSnapshotId =
      some ⟨st.db.nextSnapshotId, eid, sha256hex c, b64encodeStr c, now, notes⟩ := by
    unfold findSnapshot dbInsertSnapshot
    have hnone : st.db.snapshots.find?
        (fun s => s.id == st.db.nextSnapshotId) = none := by
      rw [List.find?_eq_none]
      intro x hx
      simpa using hfresh x hx
    rw [List.find?_append, hnone]
    simp
  have hlookOv : fsLookup (fsSet st.fs e.source_path (.file d)) e.source_path
      = some (.file d) := fsLookup_fsSet_self st.fs e.source_path _
  have hlookPre : fsLookup (fsSet st.fs e.source_path (.file d))
      (preRestorePath e.source_path) = none := by
    rw [fsLookup_fsSet_ne st.fs e.source_path (preRestorePath e.source_path) _
      (preRestorePath_ne e.source_path)]
    exact hpre
  have hcopy : fsCopy (fsSet st.fs e.source_path (.file d)) e.source_path
      (preRestorePath e.source_path) =
      some (fsSet (fsSet st.fs e.source_path (.file d))
        (preRestorePath e.source_path) (.file d)) := by
    unfold fsCopy
    rw [readBytes_of_file _ e.source_path d hlookOv]
    exact writeBytes_of_absent _ (preRestorePath e.source_path) d hlookPre
  have hlookOv2 : fsLookup (fsSet (fsSet st.fs e.source_path (.file d))
      (preRestorePath e.source_path) (.file d)) e.source_path
      = some (.file d) := by
    rw [fsLookup_fsSet_ne _ (preRestorePath e.source_path) e.source_path _
      (fun hcon => preRestorePath_ne e.source_path hcon.symm)]
    exact hlookOv
  have hwrite : writeBytes (fsSet (fsSet st.fs e.source_path (.file d))
      (preRestorePath e.source_path) (.file d)) e.source_path
      (b64decodeStr (b64encodeStr c)) =
      some (fsSet (fsSet (fsSet st.fs e.source_path (.file d))
        (preRestorePath e.source_path) (.file d)) e.source_path
        (.file (b64decodeStr (b64encodeStr c)))) :=
    writeBytes_of_file _ e.source_path d _ hlookOv2
  have hrt : b64decodeStr (b64encodeStr c) = c := b64decodeStr_b64encodeStr c hbytes
  unfold cmd_restore
  rw [heB, hsB]
  dsimp only
  rw [fsExists_of_file _ e.source_path d hlookOv, if_pos rfl, hcopy]
  dsimp only
  rw [hwrite]
  dsimp only
  constructor
  · rw [hrt]
    exact readBytes_of_file _ e.source_path c (fsLookup_fsSet_self _ e.source_path _)
  · rfl

theorem C2_backup_restore_roundtrip_witness :
    readBytes (cmd_restore ⟨(cmd_backup stC2w 1 "n" "2024").st.db,
        (writeBytes (cmd_backup stC2w 1 "n" "2024").st.fs ["s1"] [99]).getD []⟩ 1
        stC2w.db.nextSnapshotId).st.fs ["s1"] = some [10, 20] ∧
    (cmd_restore ⟨(cmd_backup stC2w 1 "n" "2024").st.db,
        (writeBytes (cmd_backup stC2w 1 "n" "2024").st.fs ["s1"] [99]).getD []⟩ 1
        stC2w.db.nextSnapshotId).crashed = false :=
  C2_backup_restore_roundtrip stC2w 1 ⟨1, "a", ["s1"], ["t1"], "tool", "", 0⟩
    [10, 20] [99] "n" "2024"
    ((writeBytes (cmd_backup stC2w 1 "n" "2024").st.fs ["s1"] [99]).getD [])
    (by decide) (by decide) (by decide) (by decide) (by decide) (by rfl)

/-- C9: exporting the manifest and importing it into an emptied store
reproduces the same multiset of entries — same name, source_path,
target_path, category, description and auto_update — while the assigned
ids may differ. -/
theorem C9_export_import_roundtrip (st : State) (db0 : DB) (fs0 : FS)
    (hnodup : (st.db.dotfiles.map DotfileEntry.name).Nodup)
    (hdb0 : db0.dotfiles = []) :
    List.Perm
      ((cmd_import_manifest ⟨db0, fs0⟩
        (cmd_export_manifest st.db).1).1.db.dotfiles.map projEntry)
      (st.db.dotfiles.map projEntry) := by
  unfold cmd_export_manifest cmd_import_manifest
  dsimp only
  have hperm : List.Perm (sortedEntries st.db) st.db.dotfiles := by
    unfold sortedEntries
    exact List.mergeSort_perm _ _
  have hwf : ∀ it ∈ (sortedEntries st.db).map entryToItem,
      it.name.isSome ∧ it.source_path.isSome ∧ it.target_path.isSome := by
    intro it hit
    obtain ⟨e, _, heq⟩ := List.mem_map.mp hit
    rw [← heq]
    exact ⟨rfl, rfl, rfl⟩
  have hnames : ((sortedEntries st.db).map entryToItem).map ManifestItem.name
      = ((sortedEntries st.db).map DotfileEntry.name).map some := by
    rw [List.map_map, List.map_map]
    rfl
  have hsortnodup : ((sortedEntries st.db).map DotfileEntry.name).Nodup :=
    ((hperm.map DotfileEntry.name).nodup_iff).mpr hnodup
  have hitemsnodup : (((sortedEntries st.db).map entryToItem).map
      ManifestItem.name).Nodup := by
    rw [hnames]
    exact hsortnodup.map (Option.some_injective _)
  have hfresh : ∀ it ∈ (sortedEntries st.db).map entryToItem,
      ∀ e2 ∈ db0.dotfiles, some e2.name ≠ it.name := by
    intro it _ e2 he2
    rw [hdb0] at he2
    cases he2
  have hfold := importFold_entries_of_fresh
    ((sortedEntries st.db).map entryToItem) db0 0 hwf hitemsnodup hfresh
  rw [hfold, hdb0]
  have hcomp : ((sortedEntries st.db).map entryToItem).map projItem
      = (sortedEntries st.db).map projEntry := by
    rw [List.map_map]
    rfl
  rw [hcomp]
  simp only [List.map_nil, List.nil_append]
  exact hperm.map projEntry

theorem C9_export_import_roundtrip_witness :
    List.Perm
      ((cmd_import_manifest ⟨stEmpty.db, []⟩
        (cmd_export_manifest stC9w.db).1).1.db.dotfiles.map projEntry)
      (stC9w.db.dotfiles.map projEntry) :=
  C9_export_import_roundtrip stC9w stEmpty.db [] (by decide) (by rfl)

/-- C5: name uniqueness is an invariant of the entry store — registering
a second entry with an existing name (and a valid category) reports the
Conflict error, leaves the state unchanged and the store still holds
exactly one entry with that name. -/
theorem C5_register_conflict (st : State) (a : RegisterArgs)
    (hcat : CATEGORIES.contains a.category = true)
    (hdup : (st.db.dotfiles.filter (fun e => e.name == a.name)).length = 1) :
    cmd_register st a = ⟨st, [.errDuplicate a.name], false⟩ ∧
    ((cmd_register st a).st.db.dotfiles.filter (fun e => e.name == a.name)).length
      = 1 := by
  have hmem : ∃ e ∈ st.db.dotfiles, (e.name == a.name) = true := by
    by_contra hc
    push_neg at hc
    have hnil : st.db.dotfiles.filter (fun e => e.name == a.name) = [] := by
      rw [List.filter_eq_nil_iff]
      intro e he
      exact fun hb => (hc e he) hb
    rw [hnil] at hdup
    cases hdup
  have hany : st.db.dotfiles.any (fun e => e.name == a.name) = true :=
    List.any_eq_true.mpr hmem
  have heq : cmd_register st a = ⟨st, [.errDuplicate a.name], false⟩ := by
    unfold cmd_register
    rw [if_neg (by rw [hcat]; exact fun hc => nomatch hc)]
    unfold dbInsertDotfile
    rw [if_pos hany]
  exact ⟨heq, by rw [heq]; exact hdup⟩

theorem C5_register_conflict_witness :
    cmd_register stC5w regC5w = ⟨stC5w, [.errDuplicate "zshrc"], false⟩ ∧
    ((cmd_register stC5w regC5w).st.db.dotfiles.filter
      (fun e => e.name == "zshrc")).length = 1 :=
  C5_register_conflict stC5w regC5w (by decide) (by decide)

/-- C6: `diff` against an existing snapshot compares the current file
hash with that of the most recent snapshot — the one of maximal
`saved_at` among the entry's snapshots, ties broken by insertion/id
order — reporting "no changes" exactly on hash equality; on inequality
it reports the change and emits the external unified diff truncated to
2000 characters (when the tool produced output), and the change report
is emitted even when the external diff tool is unavailable (diff
production is best-effort; the tool's absence aborts the run only after
the report). -/
theorem C6_diff_latest (st : State) (eid : Nat) (e : DotfileEntry) (s : Snapshot)
    (he : findEntry st.db eid = some e)
    (hs : latestSnapshot st.db eid = some s)
    (hpw : st.db.snapshots.Pairwise (fun u v => u.id < v.id)) :
    (s ∈ st.db.snapshots ∧ s.entry_id = eid ∧
      (∀ s' ∈ st.db.snapshots, s'.entry_id = eid → s'.saved_at ≤ s.saved_at) ∧
      (∀ s' ∈ st.db.snapshots, s'.entry_id = eid → s'.saved_at = s.saved_at →
        s.id ≤ s'.id)) ∧
    (file_hash st.fs e.source_path = s.content_hash →
      ∀ dt, cmd_diff st dt eid = ⟨st, [.okNoChanges e.name], false⟩) ∧
    (file_hash st.fs e.source_path ≠ s.content_hash →
      (∀ f : DiffTool, cmd_diff st (some f) eid =
        ⟨st, .warnChanged e.name (strTake 19 s.saved_at) ::
          (if f (b64decodeStr s.content_b64) e.source_path st.fs = "" then []
           else [.outDiff (strTake 2000
             (f (b64decodeStr s.content_b64) e.source_path st.fs))]),
         false⟩) ∧
      (∀ f : DiffTool, (strTake 2000
        (f (b64decodeStr s.content_b64) e.source_path st.fs)).length ≤ 2000) ∧
      cmd_diff st none eid =
        ⟨st, [.warnChanged e.name (strTake 19 s.saved_at)], true⟩) := by
  obtain ⟨hmem, heid, hmax⟩ := latestSnapshot_spec st.db eid s hs
  have htie := latestSnapshot_tie st.db eid s hs hpw
  refine ⟨⟨hmem, heid, hmax, htie⟩, ?_, ?_⟩
  · intro heq dt
    unfold cmd_diff
    rw [he, hs]
    dsimp only
    rw [if_pos heq]
  · intro hne
    refine ⟨?_, fun f => strTake_length_le 2000 _, ?_⟩
    · intro f
      unfold cmd_diff
      rw [he, hs]
      dsimp only
      rw [if_neg hne]
    · unfold cmd_diff
      rw [he, hs]
      dsimp only
      rw [if_neg hne]

theorem C6_diff_latest_witness :
    cmd_diff stC6w (some dtFixed) 1 = ⟨stC6w, [.okNoChanges "a"], false⟩ :=
  (C6_diff_latest stC6w 1 ⟨1, "a", ["s1"], ["t1"], "tool", "", 0⟩
    ⟨1, 1, sha256hex [5], b64encodeStr [5], "2024-02", ""⟩
    (by rfl) (by rfl) (by decide)).2.1 (by rfl) (some dtFixed)

/-- C7: for an entry whose source path does not exist on disk, `link`
reports the NotFound error and performs no mutation at all — the
resulting state is exactly the initial one (no directory creation, no
rename, no symlink). -/
theorem C7_link_missing_source (st : State) (eid : Nat) (e : DotfileEntry)
    (he : findEntry st.db eid = some e)
    (hmiss : fsExists st.fs e.source_path = false) :
    cmd_link st eid = ⟨st, [.errSourceMissing e.source_path], false⟩ := by
  unfold cmd_link
  rw [he]
  simp only [hmiss, if_true]

theorem C7_link_missing_source_witness :
    cmd_link stC7w 1 = ⟨stC7w, [.errSourceMissing ["src"]], false⟩ :=
  C7_link_missing_source stC7w 1 ⟨1, "a", ["src"], ["home", "t"], "tool", "", 0⟩
    (by decide) (by decide)

/-- C8: the content hasher is a deterministic function of the file's byte
content — a successful read yields the 64-hex-character (256-bit) SHA-256
digest of exactly those bytes, two reads of the same content hash alike,
and a failed read yields the empty sentinel instead of an error. -/
theorem C8_file_hash (fs fs2 fs3 : FS) (p p2 p3 : Path) (c : List Nat)
    (h1 : readBytes fs p = some c) (h2 : readBytes fs2 p2 = some c)
    (h3 : readBytes fs3 p3 = none) :
    file_hash fs p = sha256hex c ∧
    (file_hash fs p).length = 64 ∧
    file_hash fs2 p2 = file_hash fs p ∧
    file_hash fs3 p3 = "" := by
  unfold file_hash
  rw [h1, h2, h3]
  exact ⟨rfl, sha256hex_length c, rfl, rfl⟩

theorem C8_file_hash_witness :
    file_hash fsC8w ["f"] = sha256hex [1] ∧
    (file_hash fsC8w ["f"]).length = 64 ∧
    file_hash fsC8w ["f"] = file_hash fsC8w ["f"] ∧
    file_hash [] ["g"] = "" :=
  C8_file_hash fsC8w fsC8w [] ["f"] ["f"] ["g"] [1] (by decide) (by decide)
    (by decide)

end Dotfiles
